import Mathlib

/-!
Verification of the AQI dashboard CSV ingestion and derived-metrics pipeline
(src/frontend/src/App.jsx). Cell values are modelled as a tagged variant
(number, string, missing) as mandated by the data model; JS numbers are
modelled as exact rationals.
-/

/-- A parsed CSV cell: a JS number, a string, or missing (null or undefined). -/
inductive Cell where
  | num (q : ℚ)
  | str (s : String)
  | missing
deriving DecidableEq, Repr

/-- JS truthiness of a cell value: numbers are truthy unless 0, strings unless
empty, missing (null or undefined) is falsy. -/
def Cell.truthy : Cell → Bool
  | .num q => if q = 0 then false else true
  | .str s => if s = "" then false else true
  | .missing => false

/-- The check from pollutantMeans: typeof v === number (our num variant never
holds NaN, which PapaParse does not produce, so the NaN clause is vacuous). -/
def Cell.isNum : Cell → Bool
  | .num _ => true
  | _ => false

/-- Numeric payload of a cell; only applied to cells passing Cell.isNum. -/
def Cell.toNumVal : Cell → ℚ
  | .num q => q
  | _ => 0

/-- A Row Record: one parsed CSV line as an ordered column-name/value mapping
(object key insertion order is meaningful for Object.keys). -/
abbrev Row := List (String × Cell)

/-- JS property access row[key]: the value stored under key, and undefined
(modelled as missing) when the key is absent. -/
def getCell : Row → String → Cell
  | [], _ => Cell.missing
  | (k, v) :: rest, key => if key = k then v else getCell rest key

/-- Whitespace accepted before a JS numeric literal. -/
def isSpaceChar (c : Char) : Bool :=
  if c = ' ' then true else if c = '\t' then true else
  if c = '\n' then true else if c = '\r' then true else false

/-- Strip an optional leading sign; returns whether the value is negated. -/
def splitSign : List Char → Bool × List Char
  | '-' :: cs => (true, cs)
  | '+' :: cs => (false, cs)
  | cs => (false, cs)

/-- Value of a list of decimal digit characters. -/
def digitsToNat (ds : List Char) : ℕ :=
  ds.foldl (fun acc c => acc * 10 + (c.toNat - 48)) 0

/-- The syntactic parts of a decimal numeric literal: sign, value of the
integer digits, value and count of the fraction digits, exponent sign and
value. Kept in Nat/Bool form so that parsing is kernel-computable. -/
structure NumLit where
  neg : Bool
  intDigits : ℕ
  fracDigits : ℕ
  fracLen : ℕ
  expNeg : Bool
  expVal : ℕ
deriving DecidableEq, Repr

/-- Rational value denoted by a numeric literal. -/
def NumLit.value (n : NumLit) : ℚ :=
  let m : ℚ := (n.intDigits : ℚ) + (n.fracDigits : ℚ) / (10 : ℚ) ^ n.fracLen
  let m : ℚ := if n.neg then -m else m
  if n.expNeg then m / (10 : ℚ) ^ n.expVal else m * (10 : ℚ) ^ n.expVal

/-- Consume a well-formed exponent part after the mantissa; when the exponent
has no digits it is not consumed (as in JS, where parseFloat of 1e stops
after the 1). -/
def expCore (n : NumLit) (t : List Char) (fallback : List Char) : NumLit × List Char :=
  let p := splitSign t
  let ed := p.2.takeWhile Char.isDigit
  let t2 := p.2.dropWhile Char.isDigit
  if ed.isEmpty then (n, fallback)
  else ({ n with expNeg := p.1, expVal := digitsToNat ed }, t2)

/-- Parse a decimal numeric literal (sign, integer digits, optional fraction,
optional exponent) from the front of a character list, returning its parts and
the unconsumed rest; none when no digits are found. -/
def numCore (cs : List Char) : Option (NumLit × List Char) :=
  let p := splitSign cs
  let ip := p.2.takeWhile Char.isDigit
  let r1 := p.2.dropWhile Char.isDigit
  let fr :=
    match r1 with
    | '.' :: t => (t.takeWhile Char.isDigit, t.dropWhile Char.isDigit)
    | _ => ([], r1)
  if ip.isEmpty && fr.1.isEmpty then none
  else
    let n : NumLit :=
      { neg := p.1, intDigits := digitsToNat ip, fracDigits := digitsToNat fr.1
        fracLen := fr.1.length, expNeg := false, expVal := 0 }
    match fr.2 with
    | 'e' :: t => some (expCore n t fr.2)
    | 'E' :: t => some (expCore n t fr.2)
    | _ => some (n, fr.2)

/-- Model of the JS parseFloat builtin: skip leading whitespace, then parse the
longest numeric-literal prefix; none models NaN (no parsable prefix). -/
def jsParseFloat (s : String) : Option ℚ :=
  match numCore (s.data.dropWhile isSpaceChar) with
  | some pr => some pr.1.value
  | none => none

/-- The six text fields of the calculator form. -/
structure CalcForm where
  pm25 : String
  pm10 : String
  so2 : String
  no2 : String
  co : String
  o3 : String
deriving DecidableEq, Repr

/-- The JSON body posted to the scoring service. -/
structure Payload where
  pm25 : ℚ
  pm10 : ℚ
  so2 : ℚ
  no2 : ℚ
  co : ℚ
  o3 : ℚ
deriving DecidableEq, Repr

/-- The idiom parseFloat(x) || 0: NaN (none) gives 0; a parsed number v gives
v (v || 0 is v for nonzero v and 0 when v = 0, which is v again). -/
def jsOrZero : Option ℚ → ℚ
  | none => 0
  | some v => v

/-- The payload built by handleSubmit from the form fields. -/
def mkPayload (f : CalcForm) : Payload :=
  { pm25 := jsOrZero (jsParseFloat f.pm25)
    pm10 := jsOrZero (jsParseFloat f.pm10)
    so2 := jsOrZero (jsParseFloat f.so2)
    no2 := jsOrZero (jsParseFloat f.no2)
    co := jsOrZero (jsParseFloat f.co)
    o3 := jsOrZero (jsParseFloat f.o3) }

/-- Follows the claim words of C3: parsed numeric value, coerced to 0 when the
field is empty or non-numeric, and with negative values defaulting to 0. -/
def clampNonneg : Option ℚ → ℚ
  | none => 0
  | some v => if v < 0 then 0 else v

/-- Follows the claim words of C3: the payload the claim describes, with
negative parsed values defaulted to 0 before submission. -/
def specMkPayload (f : CalcForm) : Payload :=
  { pm25 := clampNonneg (jsParseFloat f.pm25)
    pm10 := clampNonneg (jsParseFloat f.pm10)
    so2 := clampNonneg (jsParseFloat f.so2)
    no2 := clampNonneg (jsParseFloat f.no2)
    co := clampNonneg (jsParseFloat f.co)
    o3 := clampNonneg (jsParseFloat f.o3) }

/-- A concrete form whose pm25 field holds a negative reading. -/
def formNeg : CalcForm :=
  { pm25 := "-5", pm10 := "", so2 := "", no2 := "", co := "", o3 := "" }

/-- The series value of a row, from aqiLineData: the nullish-coalescing chain
r.AQI ?? r.aqi ?? 0, which takes the first non-missing cell. -/
def aqiCell (r : Row) : Cell :=
  if getCell r "AQI" ≠ Cell.missing then getCell r "AQI"
  else if getCell r "aqi" ≠ Cell.missing then getCell r "aqi"
  else Cell.num 0

/-- Follows the claim words of C2: the AQI cell if numeric, otherwise the aqi
cell if numeric, otherwise 0. -/
def specAqiCell (r : Row) : Cell :=
  if (getCell r "AQI").isNum then getCell r "AQI"
  else if (getCell r "aqi").isNum then getCell r "aqi"
  else Cell.num 0

/-- The label of row r at 0-based index i, from aqiLineData: the JS expression
r.date || the string Reading (i+1), a truthiness test on the date cell. -/
def rowLabel (r : Row) (i : ℕ) : Cell :=
  if (getCell r "date").truthy then getCell r "date"
  else Cell.str ("Reading " ++ toString (i + 1))

/-- Follows the claim words of C4: the date cell whenever present and
non-missing (including the number 0 and the empty string), otherwise the
synthetic label. -/
def specRowLabel (r : Row) (i : ℕ) : Cell :=
  if getCell r "date" ≠ Cell.missing then getCell r "date"
  else Cell.str ("Reading " ++ toString (i + 1))

/-- Labels of the rows starting at 0-based index start; encodes the indexed
map csvData.map taking (r, i) to r.date || Reading (i+1). -/
def aqiLabelsFrom (start : ℕ) : List Row → List Cell
  | [] => []
  | r :: rs => rowLabel r start :: aqiLabelsFrom (start + 1) rs

/-- Labels of the AQI time series, in row order. -/
def aqiLabels (d : List Row) : List Cell := aqiLabelsFrom 0 d

/-- Values of the AQI time series, in row order. -/
def aqiValues (d : List Row) : List Cell := d.map aqiCell

/-- The labels/values pair of a chart dataset. -/
structure LineView where
  labels : List Cell
  values : List Cell
deriving DecidableEq, Repr

/-- The aqiLineData derived view: some view when csvData is non-empty and null
(none) otherwise. -/
def aqiLineData (d : List Row) : Option LineView :=
  if d.length > 0 then some { labels := aqiLabels d, values := aqiValues d }
  else none

/-- The arithmetic mean from pollutantMeans: 0 for an empty sequence, else the
reduce-sum divided by the length. -/
def mean (vals : List ℚ) : ℚ :=
  if vals.length = 0 then 0
  else vals.foldl (fun a b => a + b) 0 / (vals.length : ℚ)

/-- The column projection from pollutantMeans: the cells of one column across
all rows, keeping only those whose variant is number (typeof v === number and
not NaN), then reading off their numeric values. -/
def project (csvData : List Row) (key : String) : List ℚ :=
  ((csvData.map (fun r => getCell r key)).filter Cell.isNum).map Cell.toNumVal

/-- The fixed pollutant column order used by pollutantMeans. -/
def pollutantKeys : List String := ["PM2_5", "PM10", "NO2", "SO2", "O3", "CO"]

/-- Per-column means of the six pollutant columns, in the fixed column
order; empty when no CSV is loaded. -/
def pollutantMeans (csvData : List Row) : List ℚ :=
  if csvData.length > 0 then pollutantKeys.map (fun k => mean (project csvData k))
  else []

/-- The three-row dataset used by the projection claim. -/
def rowsX : List Row := [[("X", Cell.num 1)], [("X", Cell.str "a")], [("X", Cell.num 3)]]

/-- Split a character list at every occurrence of the separator. -/
def splitOnChar (sep : Char) : List Char → List (List Char)
  | [] => [[]]
  | c :: cs =>
    let r := splitOnChar sep cs
    if c = sep then [] :: r
    else
      match r with
      | [] => [[c]]
      | g :: gs => (c :: g) :: gs

/-- Split a string at every occurrence of the separator character. -/
def splitString (sep : Char) (s : String) : List String :=
  (splitOnChar sep s.data).map (fun cs => String.mk cs)

/-- The lines of a CSV text that are not entirely empty. -/
def nonEmptyLines (text : String) : List String :=
  (splitString '\n' text).filter (fun l => l ≠ "")

/-- Modelled from the spec: CSV parsing is performed by the external PapaParse
library (invoked by handleFileUpload with header, dynamicTyping and
skipEmptyLines; the library itself is not part of this repository). Cell
coercion follows spec section 4.1: a cell parsing as a number (standard
decimal numeric syntax, consuming the whole cell) becomes the number variant,
an empty cell becomes missing, anything else stays a string. -/
def parseCell (s : String) : Cell :=
  if s = "" then Cell.missing
  else
    match numCore s.data with
    | some (n, []) => Cell.num n.value
    | _ => Cell.str s

/-- Modelled from the spec: one Row Record from the header field names and the
cells of one data line; fields beyond the cells of a short line are missing. -/
def mkRow : List String → List String → Row
  | [], _ => []
  | f :: fs, [] => (f, Cell.missing) :: mkRow fs []
  | f :: fs, c :: cs => (f, parseCell c) :: mkRow fs cs

/-- Modelled from the spec: the Row Records built from one header line and the
data lines that follow it. -/
def parseRows (header : String) (dataLines : List String) : List Row :=
  dataLines.map (fun line => mkRow (splitString ',' header) (splitString ',' line))

/-- Modelled from the spec: the Tabular Parser of section 4.1 over the raw CSV
text; entirely empty lines are dropped, the first remaining line is the
header, and every later line yields one Row Record. -/
def parseCSV (text : String) : List Row :=
  match nonEmptyLines text with
  | [] => []
  | header :: dataLines => parseRows header dataLines

/-- The Score Result record returned by the scoring service. -/
structure ScoreResult where
  aqi : ℚ
  category : String
  dominant_pollutant : String
  chemistry_note : String
deriving DecidableEq, Repr

/-- Outcome of the fetch in handleSubmit: a parsed success body, a non-ok HTTP
response, or a transport failure (fetch throwing). -/
inductive FetchOutcome where
  | ok (data : ScoreResult)
  | httpError
  | transportError
deriving DecidableEq, Repr

/-- The calculator state touched by handleSubmit. -/
structure CalcState where
  result : Option ScoreResult
  loading : Bool
  calcError : String
deriving DecidableEq, Repr

/-- The failure message set in the catch branch of handleSubmit. -/
def failMsg : String := "Failed to calculate AQI. Is the FastAPI backend running?"

/-- Start of handleSubmit: setLoading(true), setCalcError of the empty string,
setResult(null). -/
def submitStart (s : CalcState) : CalcState :=
  { s with loading := true, calcError := "", result := none }

/-- End of handleSubmit: on a parsed success body the result is stored; a
non-ok response throws and the catch branch sets the failure message; the
finally branch always ends loading. -/
def submitFinish (s : CalcState) : FetchOutcome → CalcState
  | .ok data => { s with result := some data, loading := false }
  | .httpError => { s with calcError := failMsg, loading := false }
  | .transportError => { s with calcError := failMsg, loading := false }

/-- One whole run of handleSubmit under a given fetch outcome. -/
def handleSubmit (s : CalcState) (o : FetchOutcome) : CalcState :=
  submitFinish (submitStart s) o

/-- Header of the Data Explorer table: Object.keys of the first Row Record,
or the no-data placeholder when nothing is loaded. -/
def headers : List Row → List String
  | [] => ["No data loaded"]
  | r :: _ => r.map Prod.fst

/-- Table cell text from the JS expression String(row[h] ?? the empty
string): missing (null or undefined) renders as the empty string; the JS
string conversion of a number is abstracted as the literal text of the
rational. -/
def renderCell : Cell → String
  | .missing => ""
  | .str s => s
  | .num q => toString q

/-- The bounded table view of the Data Explorer tab. -/
structure TableView where
  header : List String
  body : List (List String)
deriving DecidableEq, Repr

/-- The table rendered by DataTab: header row plus the first 80 rows of the
Row Sequence (csvData.slice(0, 80)), each row rendered cell by cell under the
header columns. -/
def tableView (csvData : List Row) : TableView :=
  { header := headers csvData
    body := (csvData.take 80).map (fun row => (headers csvData).map (fun h => renderCell (getCell row h))) }

/-- The category-to-color dictionary literal of getBadgeColor. -/
def badgeMap : List (String × String) :=
  [("Good", "bg-green-500"), ("Satisfactory", "bg-lime-500"), ("Moderate", "bg-yellow-400"),
    ("Poor", "bg-orange-500"), ("Very Poor", "bg-red-600"), ("Severe", "bg-purple-700")]

/-- First-match lookup among the own entries of a string dictionary; the
own-property step of JS bracket access (the prototype chain is consulted
separately when this misses). -/
def lookupStr : List (String × String) → String → Option String
  | [], _ => none
  | (k, v) :: rest, key => if key = k then some v else lookupStr rest key

/-- Property names an object literal inherits from Object.prototype; bracket
access finds these through the prototype chain when no own property matches,
and each holds a function (or, for the last one, an object), hence a truthy
value. -/
def objectProtoProps : List String :=
  ["constructor", "hasOwnProperty", "isPrototypeOf", "propertyIsEnumerable",
    "toLocaleString", "toString", "valueOf", "__defineGetter__", "__defineSetter__",
    "__lookupGetter__", "__lookupSetter__", "__proto__"]

/-- A JS value that the expression map[category] || default can produce: one
of the dictionary's own string entries, a truthy function or object inherited
from Object.prototype, or undefined. -/
inductive JsProp where
  | strVal (s : String)
  | inherited (name : String)
  | undef
deriving DecidableEq, Repr

/-- JS truthiness of such a value: a string is truthy unless empty; inherited
Object.prototype members are functions or objects, always truthy; undefined
is falsy. -/
def JsProp.truthy : JsProp → Bool
  | .strVal s => if s = "" then false else true
  | .inherited _ => true
  | .undef => false

/-- JS bracket access map[category] on the badge dictionary literal: an own
entry when the key is one of the six categories, otherwise the property
inherited from Object.prototype when the key names one, otherwise
undefined. -/
def badgeLookup (category : String) : JsProp :=
  match lookupStr badgeMap category with
  | some c => JsProp.strVal c
  | none =>
    if category ∈ objectProtoProps then JsProp.inherited category
    else JsProp.undef

/-- The badge color expression map[category] || the default class: the looked
up value when truthy (own entries are non-empty strings and inherited members
are functions, both truthy), else the default class string. -/
def getBadgeColor (category : String) : JsProp :=
  let v := badgeLookup category
  if v.truthy then v else JsProp.strVal "bg-slate-700"

theorem foldl_add_eq_sum (l : List ℚ) (a : ℚ) :
    l.foldl (fun x y => x + y) a = a + l.sum := by
  induction l generalizing a with
  | nil => simp
  | cons b t ih => simp [ih, add_assoc]

/-- C1: the claim says the AQI line view is absent when neither AQI nor aqi is
a header; the code emits the view for every non-empty Row Sequence, checking
only csvData.length and never header presence, so a dataset with header
foo,bar yields a zero-filled view instead of the absent signal. This theorem
evaluates the code at that failing input. -/
theorem aqiLineData_foo_bar_zero_filled :
    aqiLineData [[("foo", Cell.num 1), ("bar", Cell.num 2)]] =
      some { labels := [Cell.str "Reading 1"], values := [Cell.num 0] } ∧
    aqiLineData [[("foo", Cell.num 1), ("bar", Cell.num 2)]] ≠ none := by
  constructor
  · decide
  · decide

/-- C5: mean of the empty sequence is 0, mean of a one-element sequence is its
element, and mean is invariant under any permutation of its input. -/
theorem mean_spec :
    mean [] = 0 ∧ (∀ x : ℚ, mean [x] = x) ∧
      ∀ (l l' : List ℚ), l.Perm l' → mean l = mean l' := by
  refine ⟨rfl, fun x => ?_, fun l l' hp => ?_⟩
  · simp [mean]
  · unfold mean
    rw [hp.length_eq, foldl_add_eq_sum, foldl_add_eq_sum, hp.sum_eq]

theorem mean_spec_witness : mean [(1 : ℚ), 2] = mean [2, 1] :=
  mean_spec.2.2 _ _ (List.Perm.swap 2 1 [])

/-- C8: a submission whose fetch outcome is a non-ok response or a transport
failure ends with no Score Result and the failure message; the previous
result is cleared at the start of the request and only a parsed success body
ever stores a result again. -/
theorem handleSubmit_failure_clears_result (s : CalcState) (o : FetchOutcome) :
    (submitStart s).result = none ∧
    ((∀ d, o ≠ FetchOutcome.ok d) →
      (handleSubmit s o).result = none ∧ (handleSubmit s o).calcError = failMsg) ∧
    (∀ d, o = FetchOutcome.ok d →
      (handleSubmit s o).result = some d ∧ (handleSubmit s o).calcError = "") := by
  refine ⟨rfl, fun h => ?_, fun d hd => ?_⟩
  · cases o with
    | ok d => exact absurd rfl (h d)
    | httpError => exact ⟨rfl, rfl⟩
    | transportError => exact ⟨rfl, rfl⟩
  · subst hd
    exact ⟨rfl, rfl⟩

theorem handleSubmit_failure_clears_result_witness :
    (handleSubmit
      { result := some ⟨10, "Good", "PM2.5", "note"⟩, loading := false, calcError := "" }
      FetchOutcome.httpError).result = none :=
  ((handleSubmit_failure_clears_result _ _).2.1
    (fun _d h => FetchOutcome.noConfusion h)).1

theorem jsOrZero_some (o : Option ℚ) (v : ℚ) (h : o = some v) : jsOrZero o = v := by
  subst h; rfl

theorem jsOrZero_none (o : Option ℚ) (h : o = none) : jsOrZero o = 0 := by
  subst h; rfl

theorem jsParseFloat_neg5 : jsParseFloat "-5" = some (-5) := by
  have hn : numCore ("-5".data.dropWhile isSpaceChar) =
      some (⟨true, 5, 0, 0, false, 0⟩, []) := by decide
  rw [jsParseFloat, hn]
  norm_num [NumLit.value]

/-- C3 counterexample: the claim says negative values default to 0 before
submission; the code computes parseFloat(field) || 0, and a parsed -5 is
truthy, so the payload carries -5 where the claim-described payload carries
0. -/
theorem mkPayload_negative_cex :
    (mkPayload formNeg).pm25 = -5 ∧ (specMkPayload formNeg).pm25 = 0 ∧
      mkPayload formNeg ≠ specMkPayload formNeg := by
  have ha : (mkPayload formNeg).pm25 = -5 := by
    show jsOrZero (jsParseFloat "-5") = -5
    rw [jsParseFloat_neg5]; rfl
  have hb : (specMkPayload formNeg).pm25 = 0 := by
    show clampNonneg (jsParseFloat "-5") = 0
    rw [jsParseFloat_neg5]
    norm_num [clampNonneg]
  refine ⟨ha, hb, fun hc => ?_⟩
  rw [hc, hb] at ha
  norm_num at ha

/-- C3 amended: the submitted payload gives each of the six pollutant fields
the parseFloat value of its form field when that parse succeeds (negative
values included, unchanged), and 0 when the field is empty or non-numeric
(parseFloat NaN). -/
theorem mkPayload_field_semantics (f : CalcForm) :
    ((∀ v, jsParseFloat f.pm25 = some v → (mkPayload f).pm25 = v) ∧
      (jsParseFloat f.pm25 = none → (mkPayload f).pm25 = 0)) ∧
    ((∀ v, jsParseFloat f.pm10 = some v → (mkPayload f).pm10 = v) ∧
      (jsParseFloat f.pm10 = none → (mkPayload f).pm10 = 0)) ∧
    ((∀ v, jsParseFloat f.so2 = some v → (mkPayload f).so2 = v) ∧
      (jsParseFloat f.so2 = none → (mkPayload f).so2 = 0)) ∧
    ((∀ v, jsParseFloat f.no2 = some v → (mkPayload f).no2 = v) ∧
      (jsParseFloat f.no2 = none → (mkPayload f).no2 = 0)) ∧
    ((∀ v, jsParseFloat f.co = some v → (mkPayload f).co = v) ∧
      (jsParseFloat f.co = none → (mkPayload f).co = 0)) ∧
    ((∀ v, jsParseFloat f.o3 = some v → (mkPayload f).o3 = v) ∧
      (jsParseFloat f.o3 = none → (mkPayload f).o3 = 0)) :=
  ⟨⟨fun v h => jsOrZero_some _ v h, fun h => jsOrZero_none _ h⟩,
    ⟨fun v h => jsOrZero_some _ v h, fun h => jsOrZero_none _ h⟩,
    ⟨fun v h => jsOrZero_some _ v h, fun h => jsOrZero_none _ h⟩,
    ⟨fun v h => jsOrZero_some _ v h, fun h => jsOrZero_none _ h⟩,
    ⟨fun v h => jsOrZero_some _ v h, fun h => jsOrZero_none _ h⟩,
    ⟨fun v h => jsOrZero_some _ v h, fun h => jsOrZero_none _ h⟩⟩

theorem mkPayload_field_semantics_witness :
    (mkPayload formNeg).pm25 = -5 ∧ (mkPayload formNeg).pm10 = 0 :=
  ⟨(mkPayload_field_semantics formNeg).1.1 (-5) jsParseFloat_neg5,
    (mkPayload_field_semantics formNeg).2.1.2 (by decide)⟩

theorem aqiValues_get (d : List Row) (i : ℕ) (h1 : i < (aqiValues d).length)
    (h2 : i < d.length) :
    (aqiValues d).get ⟨i, h1⟩ = aqiCell (d.get ⟨i, h2⟩) := by
  simp [aqiValues]

theorem aqiLabelsFrom_get (d : List Row) (s i : ℕ) (h1 : i < (aqiLabelsFrom s d).length)
    (h2 : i < d.length) :
    (aqiLabelsFrom s d).get ⟨i, h1⟩ = rowLabel (d.get ⟨i, h2⟩) (s + i) := by
  induction d generalizing s i with
  | nil => exact absurd h2 (Nat.not_lt_zero i)
  | cons r rs ih =>
    cases i with
    | zero => simp [aqiLabelsFrom]
    | succ n =>
      have h2' : n < rs.length := Nat.lt_of_succ_lt_succ h2
      have h1' : n < (aqiLabelsFrom (s + 1) rs).length := by
        simpa [aqiLabelsFrom] using h1
      have step : (aqiLabelsFrom s (r :: rs)).get ⟨n + 1, h1⟩ =
          (aqiLabelsFrom (s + 1) rs).get ⟨n, h1'⟩ := rfl
      have harg : s + 1 + n = s + (n + 1) := by omega
      rw [step, ih (s + 1) n h1' h2', harg]
      rfl

theorem aqiLineData_some_eq (d : List Row) (v : LineView) (hd : 0 < d.length)
    (hv : aqiLineData d = some v) : v.labels = aqiLabels d ∧ v.values = aqiValues d := by
  unfold aqiLineData at hv
  rw [if_pos hd] at hv
  cases hv
  exact ⟨rfl, rfl⟩

/-- C2 counterexample: the claim says a row whose only AQI cell holds a
non-numeric string contributes 0; the code coalesces on presence (nullish
check), so the string itself is placed in the series. -/
theorem aqiCell_nonnumeric_string_cex :
    aqiCell [("AQI", Cell.str "hello")] = Cell.str "hello" ∧
    specAqiCell [("AQI", Cell.str "hello")] = Cell.num 0 ∧
    aqiCell [("AQI", Cell.str "hello")] ≠ specAqiCell [("AQI", Cell.str "hello")] := by
  refine ⟨by decide, by decide, by decide⟩

/-- C2 amended: the value placed in the AQI time series is the row AQI cell if
present (non-missing), otherwise the aqi cell if present, otherwise 0;
presence, not numericness, is what is checked, so non-numeric cells pass
through unchanged. -/
theorem aqi_series_value_presence (d : List Row) (v : LineView)
    (hv : aqiLineData d = some v) (i : ℕ) (hi : i < d.length)
    (hiv : i < v.values.length) :
    (getCell (d.get ⟨i, hi⟩) "AQI" ≠ Cell.missing →
        v.values.get ⟨i, hiv⟩ = getCell (d.get ⟨i, hi⟩) "AQI") ∧
    (getCell (d.get ⟨i, hi⟩) "AQI" = Cell.missing →
      getCell (d.get ⟨i, hi⟩) "aqi" ≠ Cell.missing →
        v.values.get ⟨i, hiv⟩ = getCell (d.get ⟨i, hi⟩) "aqi") ∧
    (getCell (d.get ⟨i, hi⟩) "AQI" = Cell.missing →
      getCell (d.get ⟨i, hi⟩) "aqi" = Cell.missing →
        v.values.get ⟨i, hiv⟩ = Cell.num 0) := by
  have hd : 0 < d.length := Nat.lt_of_le_of_lt (Nat.zero_le i) hi
  obtain ⟨vl, vv⟩ := v
  obtain ⟨-, hval⟩ := aqiLineData_some_eq d ⟨vl, vv⟩ hd hv
  simp only at hval
  subst hval
  have hget : (aqiValues d).get ⟨i, hiv⟩ = aqiCell (d.get ⟨i, hi⟩) :=
    aqiValues_get d i hiv hi
  refine ⟨fun h1 => ?_, fun h1 h2 => ?_, fun h1 h2 => ?_⟩
  · rw [hget, aqiCell, if_pos h1]
  · rw [hget, aqiCell, if_neg (fun hc => hc h1), if_pos h2]
  · rw [hget, aqiCell, if_neg (fun hc => hc h1), if_neg (fun hc => hc h2)]

theorem aqi_series_value_presence_witness :
    (LineView.mk [Cell.str "Reading 1"] [Cell.num 7]).values.get ⟨0, by decide⟩ =
      Cell.num 7 :=
  (aqi_series_value_presence [[("aqi", Cell.num 7)]]
    (LineView.mk [Cell.str "Reading 1"] [Cell.num 7]) (by decide) 0 (by decide)
    (by decide)).2.1 (by decide) (by decide)

/-- C4 counterexample: the claim says a date cell holding the number 0 is used
as the label; the code tests truthiness (r.date || synthetic), and 0 is falsy,
so the synthetic label is used instead. -/
theorem rowLabel_zero_date_cex :
    rowLabel [("date", Cell.num 0)] 0 = Cell.str "Reading 1" ∧
    specRowLabel [("date", Cell.num 0)] 0 = Cell.num 0 ∧
    rowLabel [("date", Cell.num 0)] 0 ≠ specRowLabel [("date", Cell.num 0)] 0 := by
  refine ⟨by decide, by decide, by decide⟩

/-- C4 amended: the label of row i is the row date cell whenever that cell is
truthy (present, non-missing, and neither the number 0 nor the empty string),
and the synthetic Reading (i+1) label otherwise, in particular when the date
cell is 0, the empty string, or missing. -/
theorem aqi_series_label_truthy (d : List Row) (v : LineView)
    (hv : aqiLineData d = some v) (i : ℕ) (hi : i < d.length)
    (hiv : i < v.labels.length) :
    ((getCell (d.get ⟨i, hi⟩) "date").truthy = true →
        v.labels.get ⟨i, hiv⟩ = getCell (d.get ⟨i, hi⟩) "date") ∧
    ((getCell (d.get ⟨i, hi⟩) "date").truthy = false →
        v.labels.get ⟨i, hiv⟩ = Cell.str ("Reading " ++ toString (i + 1))) := by
  have hd : 0 < d.length := Nat.lt_of_le_of_lt (Nat.zero_le i) hi
  obtain ⟨vl, vv⟩ := v
  obtain ⟨hlab, -⟩ := aqiLineData_some_eq d ⟨vl, vv⟩ hd hv
  simp only at hlab
  subst hlab
  have hget : (aqiLabels d).get ⟨i, hiv⟩ = rowLabel (d.get ⟨i, hi⟩) i := by
    have h0 := aqiLabelsFrom_get d 0 i hiv hi
    rw [Nat.zero_add] at h0
    exact h0
  refine ⟨fun h1 => ?_, fun h1 => ?_⟩
  · rw [hget, rowLabel, if_pos h1]
  · rw [hget, rowLabel, if_neg]
    rw [h1]
    simp

theorem aqi_series_label_truthy_witness :
    (LineView.mk [Cell.str "2024-01-01"] [Cell.num 42]).labels.get ⟨0, by decide⟩ =
      Cell.str "2024-01-01" :=
  ((aqi_series_label_truthy [[("date", Cell.str "2024-01-01"), ("AQI", Cell.num 42)]]
    (LineView.mk [Cell.str "2024-01-01"] [Cell.num 42]) (by decide) 0 (by decide)
    (by decide)).1 (by decide)).trans (by decide)

theorem filter_isNum_roundtrip (cs : List Cell) :
    ((cs.filter Cell.isNum).map Cell.toNumVal).map Cell.num = cs.filter Cell.isNum := by
  induction cs with
  | nil => rfl
  | cons c t ih =>
    cases c with
    | num q => simpa [List.filter_cons, Cell.isNum, Cell.toNumVal] using ih
    | str s => simpa [List.filter_cons, Cell.isNum] using ih
    | missing => simpa [List.filter_cons, Cell.isNum] using ih

/-- C6: projecting a column keeps exactly the cells whose variant is number,
in their relative order, excluding rather than zero-filling the rest; on the
rows with X cells 1, the string a, and 3, the projection is the sequence 1, 3
with mean 2. -/
theorem project_numeric_filter :
    (project rowsX "X" = [1, 3] ∧ mean (project rowsX "X") = 2) ∧
    ∀ (d : List Row) (k : String),
      (project d k).map Cell.num = (d.map (fun r => getCell r k)).filter Cell.isNum := by
  have hx : project rowsX "X" = [1, 3] := by decide
  refine ⟨⟨hx, ?_⟩, fun d k => filter_isNum_roundtrip _⟩
  rw [hx]
  norm_num [mean]

theorem mkRow_keys (fields cells : List String) :
    (mkRow fields cells).map Prod.fst = fields := by
  induction fields generalizing cells with
  | nil => rfl
  | cons f fs ih =>
    cases cells with
    | nil => simp [mkRow, ih]
    | cons c cs => simp [mkRow, ih]

/-- C7: parsing a CSV text whose non-empty lines are a header followed by at
least one data line yields one Row Record per non-empty data line, and every
record's key list is exactly the header's field list (so all records share
the header's key set). The parser is modelled from spec section 4.1 because
the repository delegates parsing to the external PapaParse library. -/
theorem parseCSV_length_and_keys (text header : String) (dataLines : List String)
    (h : nonEmptyLines text = header :: dataLines) (_hne : dataLines ≠ []) :
    (parseCSV text).length = dataLines.length ∧
    ∀ r ∈ parseCSV text, r.map Prod.fst = splitString ',' header := by
  have hp : parseCSV text = parseRows header dataLines := by
    rw [parseCSV, h]
  refine ⟨?_, ?_⟩
  · rw [hp]
    simp [parseRows]
  · intro r hr
    rw [hp] at hr
    simp only [parseRows, List.mem_map] at hr
    obtain ⟨line, -, rfl⟩ := hr
    exact mkRow_keys _ _

theorem parseCSV_length_and_keys_witness :
    (parseCSV "date,AQI\n2024-01-01,42\n\n,7").length = 2 ∧
    ∀ r ∈ parseCSV "date,AQI\n2024-01-01,42\n\n,7",
      r.map Prod.fst = splitString ',' "date,AQI" := by
  have h := parseCSV_length_and_keys "date,AQI\n2024-01-01,42\n\n,7" "date,AQI"
    ["2024-01-01,42", ",7"] (by decide) (by decide)
  exact ⟨h.1, h.2⟩

theorem get_map_eq {α β : Type} (f : α → β) (l : List α) (i : ℕ)
    (h1 : i < (l.map f).length) (h2 : i < l.length) :
    (l.map f).get ⟨i, h1⟩ = f (l.get ⟨i, h2⟩) := by
  simp

theorem get_take_eq {α : Type} (l : List α) (n i : ℕ) (h1 : i < (l.take n).length)
    (h2 : i < l.length) :
    (l.take n).get ⟨i, h1⟩ = l.get ⟨i, h2⟩ := by
  induction l generalizing n i with
  | nil => exact absurd h2 (Nat.not_lt_zero i)
  | cons a t ih =>
    cases n with
    | zero => simp at h1
    | succ m =>
      cases i with
      | zero => rfl
      | succ j =>
        have h1' : j < (t.take m).length := by simpa using h1
        have h2' : j < t.length := Nat.lt_of_succ_lt_succ h2
        exact ih m j h1' h2'

/-- C9: for a non-empty Row Sequence the table header is the key list of the
first Row Record, the body holds exactly the first min(length, 80) rows, each
rendered row lists the rendered cell of every header column in order, and a
missing or absent cell renders as the empty string. -/
theorem tableView_shape (d : List Row) (hd : d ≠ []) :
    (tableView d).header = (d.head hd).map Prod.fst ∧
    (tableView d).body.length = min d.length 80 ∧
    (∀ i (hi : i < (tableView d).body.length) (hd2 : i < d.length),
      (tableView d).body.get ⟨i, hi⟩ =
        (tableView d).header.map (fun h => renderCell (getCell (d.get ⟨i, hd2⟩) h))) ∧
    renderCell Cell.missing = "" := by
  refine ⟨?_, ?_, ?_, rfl⟩
  · cases d with
    | nil => exact absurd rfl hd
    | cons r rs => rfl
  · simp [tableView, List.length_take, Nat.min_comm]
  · intro i hi hd2
    have hti : i < (d.take 80).length := by simpa [tableView] using hi
    have h1 := get_map_eq
      (fun row => (headers d).map (fun h => renderCell (getCell row h))) (d.take 80) i hi hti
    rw [get_take_eq d 80 i hti hd2] at h1
    exact h1

theorem tableView_shape_witness :
    (tableView (List.replicate 500 [("a", Cell.num 1)])).body.length = 80 ∧
    renderCell Cell.missing = "" := by
  have h := tableView_shape (List.replicate 500 [("a", Cell.num 1)])
    (List.ne_nil_of_length_pos (by rw [List.length_replicate]; omega))
  refine ⟨?_, h.2.2.2⟩
  rw [h.2.1, List.length_replicate]
  decide


/-- C10 counterexample: the claim says every string outside the six fixed
categories yields the default class; JS bracket access traverses the
prototype chain, so the input toString finds the inherited, truthy
Object.prototype.toString function and the or-default returns that function
instead of the default class. -/
theorem getBadgeColor_proto_cex :
    getBadgeColor "toString" = JsProp.inherited "toString" ∧
    getBadgeColor "toString" ≠ JsProp.strVal "bg-slate-700" := by
  refine ⟨by decide, by decide⟩

/-- C10 amended: the mapping never fails; each of the six categories yields
its fixed color class; every other input string that does not name an
Object.prototype property (the empty string included) yields the default
class bg-slate-700; an input naming an Object.prototype property yields that
inherited truthy member instead of the default class. -/
theorem getBadgeColor_total_amended :
    getBadgeColor "Good" = JsProp.strVal "bg-green-500" ∧
    getBadgeColor "Satisfactory" = JsProp.strVal "bg-lime-500" ∧
    getBadgeColor "Moderate" = JsProp.strVal "bg-yellow-400" ∧
    getBadgeColor "Poor" = JsProp.strVal "bg-orange-500" ∧
    getBadgeColor "Very Poor" = JsProp.strVal "bg-red-600" ∧
    getBadgeColor "Severe" = JsProp.strVal "bg-purple-700" ∧
    (∀ s : String,
      s ∉ ["Good", "Satisfactory", "Moderate", "Poor", "Very Poor", "Severe"] →
      s ∉ objectProtoProps →
        getBadgeColor s = JsProp.strVal "bg-slate-700") ∧
    (∀ s : String,
      s ∉ ["Good", "Satisfactory", "Moderate", "Poor", "Very Poor", "Severe"] →
      s ∈ objectProtoProps →
        getBadgeColor s = JsProp.inherited s) := by
  refine ⟨by decide, by decide, by decide, by decide, by decide, by decide,
    fun s hcat hproto => ?_, fun s hcat hproto => ?_⟩
  · simp only [List.mem_cons, List.not_mem_nil, or_false, not_or] at hcat
    obtain ⟨h1, h2, h3, h4, h5, h6⟩ := hcat
    simp [getBadgeColor, badgeLookup, badgeMap, lookupStr, JsProp.truthy,
      h1, h2, h3, h4, h5, h6, hproto]
  · simp only [List.mem_cons, List.not_mem_nil, or_false, not_or] at hcat
    obtain ⟨h1, h2, h3, h4, h5, h6⟩ := hcat
    simp [getBadgeColor, badgeLookup, badgeMap, lookupStr, JsProp.truthy,
      h1, h2, h3, h4, h5, h6, hproto]

theorem getBadgeColor_total_amended_witness :
    (getBadgeColor "" = JsProp.strVal "bg-slate-700" ∧
      getBadgeColor "Hazardous" = JsProp.strVal "bg-slate-700") ∧
    getBadgeColor "valueOf" = JsProp.inherited "valueOf" :=
  ⟨⟨getBadgeColor_total_amended.2.2.2.2.2.2.1 "" (by decide) (by decide),
      getBadgeColor_total_amended.2.2.2.2.2.2.1 "Hazardous" (by decide) (by decide)⟩,
    getBadgeColor_total_amended.2.2.2.2.2.2.2 "valueOf" (by decide) (by decide)⟩
